import Mathlib

/-
Verification of the CopyFilesOverSSH task's file-selection and
transfer-orchestration engine (copyfilesoverssh.ts), as a shallow
embedding in Lean 4.

The filesystem walk (tl.find / tl.stats), the pattern-matching library
(minimatch) and the SSH transport (SshHelper) are external collaborators
of the engine; they enter the embedding as parameters (a file listing, a
matcher function, an environment of remote-operation outcomes).  The
engine's own logic — pattern classification, include/exclude filtering,
path mapping, directory planning, batching, error aggregation and
resource release — is translated from the source.
-/

namespace CopyFilesOverSSH

/-- Whitespace test used by the modelled string trim. -/
def isJsSpace (c : Char) : Bool := c == ' ' || c == '\t' || c == '\n' || c == '\r'

/-- Model of the trim applied to each raw pattern (contents.map(x => x.trim())). -/
def jsTrim (s : String) : String :=
  ⟨((s.toList.dropWhile isJsSpace).reverse.dropWhile isJsSpace).reverse⟩

/-- Number of leading bang characters of a pattern.  The loop in getFilesToCopy
counts consecutive leading bangs into numberOfNegations, toggling `negate` on
each one, so `negate` ends up true iff this count is odd. -/
def leadingNegations (p : String) : Nat := (p.toList.takeWhile (fun c => c == '!')).length

/-- First n characters of a string (pattern.substring(0, numberOfNegations)). -/
def strTake (s : String) (n : Nat) : String := ⟨s.toList.take n⟩

/-- All but the first n characters of a string (pattern.substring(numberOfNegations),
and x.substring(sourceFolder.length) in prepareFiles). -/
def strDrop (s : String) (n : Nat) : String := ⟨s.toList.drop n⟩

/-- Model of path.join(sourceFolder, pattern) on posix-style inputs: concatenation
with a single separator.  Normalization of dot segments is not modelled; no claim
exercises it. -/
def pathJoin (a b : String) : String :=
  if a.toList.getLast? == some '/' then a ++ b else a ++ "/" ++ b

/-- The two pattern buckets built by getFilesToCopy. -/
structure Classified where
  includeContents : List String
  excludeContents : List String
  deriving DecidableEq, Repr

/-- One step of the classification loop (copyfilesoverssh.ts lines 18-39): an odd
number of leading bangs sends the pattern to the exclude bucket, keeping the bang
run and appending the root-joined remainder; otherwise the root is joined with
the full pattern (bangs included, if any) and pushed to the include bucket. -/
def classifyStep (sourceFolder : String) (acc : Classified) (rawPat : String) : Classified :=
  let pat := jsTrim rawPat
  let k := leadingNegations pat
  if k % 2 == 1 then
    ⟨acc.includeContents, acc.excludeContents ++ [strTake pat k ++ pathJoin sourceFolder (strDrop pat k)]⟩
  else
    ⟨acc.includeContents ++ [pathJoin sourceFolder pat], acc.excludeContents⟩

/-- The classification loop over the whole contents input. -/
def classifyPatterns (sourceFolder : String) (contents : List String) : Classified :=
  contents.foldl (classifyStep sourceFolder) ⟨[], []⟩

/-- minimatch.match(list, pattern, options) filters the list by the pattern,
element-wise.  The matcher itself is a parameter: minimatch is an external
library of the engine. -/
def minimatchList (m : String → String → Bool) (files : List String) (pat : String) : List String :=
  files.filter (fun f => m pat f)

/-- The dedup step of the include loop: pathsSeen holds exactly the members of
the accumulated files list, so pushing a match unless it was seen is appending
it unless it is already a member. -/
def addUnseen (acc : List String) (x : String) : List String :=
  if x ∈ acc then acc else acc ++ [x]

/-- The include loop of getFilesToCopy (lines 70-83): each include pattern is
matched against the full file listing and the matches are appended to the
accumulated result, skipping paths already added. -/
def applyIncludes (m : String → String → Bool) (allFiles : List String) (inc : List String) : List String :=
  inc.foldl (fun files pat => (minimatchList m allFiles pat).foldl addUnseen files) []

/-- The exclude loop of getFilesToCopy (lines 86-97): each exclude pattern is
matched against the current accumulated list and the list is replaced by the
matched subset. -/
def applyExcludes (m : String → String → Bool) (files : List String) (exc : List String) : List String :=
  exc.foldl (fun files pat => minimatchList m files pat) files

/-- The implicit match-all include (lines 54-56): when there are only exclude
filters, a lone match-everything pattern is injected as the include list. -/
def effectiveIncludes (c : Classified) : List String :=
  if c.includeContents.isEmpty && !c.excludeContents.isEmpty then ["**"] else c.includeContents

/-- getFilesToCopy, with the filesystem walk abstracted into the allFiles
parameter (the non-directory entries found under the source folder) and the
minimatch library abstracted into the matcher m. -/
def getFilesToCopy (m : String → String → Bool) (sourceFolder : String) (contents : List String) (allFiles : List String) : List String :=
  let c := classifyPatterns sourceFolder contents
  applyExcludes m (applyIncludes m allFiles (effectiveIncludes c)) c.excludeContents

/-- Splits a character list at a separator character; used to view paths and
glob patterns as segment lists. -/
def splitOnChar (sep : Char) : List Char → List (List Char)
  | [] => [[]]
  | c :: cs =>
    match splitOnChar sep cs with
    | [] => if c == sep then [[], []] else [[c]]
    | g :: gs => if c == sep then [] :: g :: gs else (c :: g) :: gs

/-- Single-segment glob match (literal characters, question mark, star), on a
fuel budget so that the definition is structurally recursive and evaluable by
the kernel; the fuel passed by callers strictly exceeds the total length of the
two arguments, and every recursive call shrinks that total, so the budget is
never exhausted. -/
def segMatchFuel : Nat → List Char → List Char → Bool
  | 0, _, _ => false
  | _ + 1, [], [] => true
  | _ + 1, [], _ :: _ => false
  | n + 1, '*' :: ps, [] => segMatchFuel n ps []
  | n + 1, '*' :: ps, c :: cs =>
    segMatchFuel n ps (c :: cs) || segMatchFuel n ('*' :: ps) cs
  | _ + 1, '?' :: _, [] => false
  | n + 1, '?' :: ps, _ :: cs => segMatchFuel n ps cs
  | _ + 1, _ :: _, [] => false
  | n + 1, p :: ps, c :: cs => p == c && segMatchFuel n ps cs

/-- Single-segment glob match with sufficient fuel. -/
def segMatch (ps cs : List Char) : Bool :=
  segMatchFuel (ps.length + cs.length + 1) ps cs

/-- Glob match of a pattern segment list against a path segment list, with the
double-star segment matching any number of path segments, on a fuel budget as
in segMatchFuel. -/
def globSegsFuel : Nat → List (List Char) → List (List Char) → Bool
  | 0, _, _ => false
  | _ + 1, [], [] => true
  | _ + 1, [], _ :: _ => false
  | n + 1, p :: ps, ss =>
    if p == ['*', '*'] then
      globSegsFuel n ps ss ||
        (match ss with
         | [] => false
         | _ :: tail => globSegsFuel n (p :: ps) tail)
    else
      match ss with
      | [] => false
      | s :: tail => segMatch p s && globSegsFuel n ps tail

/-- Glob match of pattern segments against path segments with sufficient fuel. -/
def globSegs (ps ss : List (List Char)) : Bool :=
  globSegsFuel (ps.length + ss.length + 1) ps ss

/-- A fragment of the external minimatch library's semantics with the options
the source passes (dot true, matchBase true): leading bangs negate with parity,
a slash-free pattern may match the path's basename, a double-star segment
spans directories, a star inside a segment spans characters, a bang after the
leading run is an ordinary literal character.  Character classes, braces and
extglobs are outside the fragment; no concrete input below uses them.  Used
only to instantiate the matcher parameter on concrete inputs. -/
def minimatchOne (pat f : String) : Bool :=
  let k := leadingNegations pat
  let body := pat.toList.drop k
  let psegs := splitOnChar '/' body
  let fsegs := splitOnChar '/' f.toList
  let base := fsegs.getLastD []
  let raw := globSegs psegs fsegs || (psegs.length == 1 && segMatch body base)
  if k % 2 == 1 then !raw else raw

/-- Model of path.posix.dirname on the slash-normalized remote paths the engine
produces (no trailing slashes): everything before the last slash, a dot when
there is no slash, a lone slash when the last slash is leading. -/
def posixDirname (p : String) : String :=
  match (p.toList.reverse.dropWhile (fun c => !(c == '/'))) with
  | [] => "."
  | _ :: rest => if rest.isEmpty then "/" else ⟨rest.reverse⟩

/-- Model of path.basename on posix-style paths: the part after the last slash. -/
def posixBasename (p : String) : String :=
  ⟨(p.toList.reverse.takeWhile (fun c => !(c == '/'))).reverse⟩

/-- Modelled from the spec: utils.unixyPath (utils.ts is not in the sources) —
the remote path is forward-slash-normalized, all backslashes converted to
forward slashes. -/
def unixyPath (p : String) : String :=
  ⟨p.toList.map (fun c => if c == '\\' then '/' else c)⟩

/-- Modelled from the spec: utils.pathIsUNC (utils.ts is not in the sources) —
a UNC-style path is a network-share form starting with two backslashes. -/
def pathIsUNC (p : String) : Bool :=
  ['\\', '\\'].isPrefixOf p.toList

/-- Model of path.isAbsolute for posix-style paths: a leading slash. -/
def pathIsAbsolute (p : String) : Bool :=
  ['/'].isPrefixOf p.toList

/-- The leading separator strip in prepareFiles: replace(/^\\/g, "") then
replace(/^\//g, "") each remove one anchored leading separator. -/
def stripLeadingSep (s : String) : String :=
  let s1 := if ['\\'].isPrefixOf s.toList then strDrop s 1 else s
  if ['/'].isPrefixOf s1.toList then strDrop s1 1 else s1

/-- Model of path.posix.join of the target folder and the relative portion:
forward-slash concatenation (dot-segment normalization not modelled; no claim
exercises it).  Joining with an empty part follows the node behavior of
dropping the empty component. -/
def posixJoin (a b : String) : String :=
  if a.isEmpty then b
  else if b.isEmpty then a
  else if a.toList.getLast? == some '/' then a ++ b else a ++ "/" ++ b

/-- prepareFiles (copyfilesoverssh.ts lines 102-117): maps each selected local
path to the pair of itself and its normalized remote path — basename under the
target when flattening, else the source-relative subpath under the target —
prefixing dot-slash when the result is relative and not UNC-style. -/
def prepareFiles (filesToCopy : List String) (sourceFolder targetFolder : String) (flattenFolders : Bool) : List (String × String) :=
  filesToCopy.map (fun x =>
    let rel := if flattenFolders then posixBasename x else stripLeadingSep (strDrop x sourceFolder.toList.length)
    let targetPath := posixJoin targetFolder rel
    let targetPath := if !pathIsAbsolute targetPath && !pathIsUNC targetPath then "./" ++ targetPath else targetPath
    (x, unixyPath targetPath))

/-- getUniqueFolders (copyfilesoverssh.ts lines 119-133): collects the dirname
of each mapped path into an insertion-ordered set, skipping a dirname already
present; the JS Set preserves insertion order, so this is first-seen exact
deduplication. -/
def getUniqueFolders (filesToCopy : List String) : List String :=
  filesToCopy.foldl (fun acc fp =>
    let folderPath := posixDirname fp
    if folderPath ∈ acc then acc else acc ++ [folderPath]) []

/-- String comparison used to model JS Array.prototype.sort's default string
ordering (lexicographic; identical to code-point order on these inputs). -/
def strLe (a b : String) : Bool := decide (a ≤ b)

/-- Insertion step of the modelled sort. -/
def insertSorted (x : String) : List String → List String
  | [] => [x]
  | y :: ys => if strLe x y then x :: y :: ys else y :: insertSorted x ys

/-- Model of the .sort() applied to the mapped remote paths before directory
planning (line 243): a sort under the default string ordering. -/
def sortStrings (l : List String) : List String := l.foldr insertSorted []

/-- Observable remote-side interactions of a run, used to state which calls the
engine makes and in what order. -/
inductive Event where
  | createHelper : Event
  | mkdirCall : String → Event
  | existsCheck : String → Event
  | uploadCall : String → String → Event
  | warningEmitted : Event
  | closeCall : Event
  deriving DecidableEq, Repr

/-- Discriminator for upload events. -/
def isUploadEvent : Event → Bool
  | Event.uploadCall _ _ => true
  | _ => false

/-- Discriminator for the warning event. -/
def isWarningEvent : Event → Bool
  | Event.warningEmitted => true
  | _ => false

/-- Outcomes of the external SshHelper operations a run performs, supplied as
an environment: whether creating a given remote directory succeeds, whether a
given remote path exists, and whether uploading a given local file succeeds. -/
structure Env where
  mkdirOk : String → Bool
  remoteExists : String → Bool
  uploadOk : String → Bool

/-- A settled per-file promise outcome, as observed by Promise.allSettled. -/
inductive FileOutcome where
  | fulfilled : FileOutcome
  | rejected : String → FileOutcome
  deriving DecidableEq, Repr

/-- Discriminator matching results.filter(p => p.status === 'rejected'). -/
def isRejected : FileOutcome → Bool
  | FileOutcome.rejected _ => true
  | FileOutcome.fulfilled => false

/-- Discriminator matching results.filter(p => p.status === 'fulfilled'). -/
def isFulfilled : FileOutcome → Bool
  | FileOutcome.fulfilled => true
  | FileOutcome.rejected _ => false

/-- The per-file task dispatched inside a batch (copyfilesoverssh.ts lines
265-281): when overwrite is off, first check remote existence of the target
and reject with the FileExists message without uploading when it exists;
otherwise upload, the outcome following the transport's verdict.  Returns the
events the task emits together with its settled outcome. -/
def transferFile (env : Env) (overwrite : Bool) (fileToCopy targetPath : String) : List Event × FileOutcome :=
  if !overwrite && env.remoteExists targetPath then
    ([Event.existsCheck targetPath], FileOutcome.rejected ("FileExists " ++ targetPath))
  else
    let checkEvents := if !overwrite then [Event.existsCheck targetPath] else []
    if env.uploadOk fileToCopy then
      (checkEvents ++ [Event.uploadCall fileToCopy targetPath], FileOutcome.fulfilled)
    else
      (checkEvents ++ [Event.uploadCall fileToCopy targetPath],
        FileOutcome.rejected ("UploadFailed " ++ fileToCopy))

/-- The settled outcomes of one batch: Promise.allSettled collects one outcome
per chunk member, each depending only on its own pair, with no cross-member
cancellation. -/
def chunkOutcomes (env : Env) (overwrite : Bool) (chunk : List (String × String)) : List FileOutcome :=
  chunk.map (fun pt => (transferFile env overwrite pt.1 pt.2).2)

/-- The events one batch emits. -/
def chunkEvents (env : Env) (overwrite : Bool) (chunk : List (String × String)) : List Event :=
  (chunk.map (fun pt => (transferFile env overwrite pt.1 pt.2).1)).flatten

/-- Number of rejected outcomes in one batch (errors.length). -/
def chunkErrorCount (env : Env) (overwrite : Bool) (chunk : List (String × String)) : Nat :=
  ((chunkOutcomes env overwrite chunk).filter isRejected).length

/-- Number of fulfilled outcomes in one batch. -/
def chunkFulfilledCount (env : Env) (overwrite : Bool) (chunk : List (String × String)) : Nat :=
  ((chunkOutcomes env overwrite chunk).filter isFulfilled).length

/-- The chunking of the prepared files (lines 257-263): Math.ceil(n / 10)
chunks, the i-th being the slice from i*10 of length at most 10. -/
def chunkSlices (chunkSize : Nat) (l : List (String × String)) : List (List (String × String)) :=
  (List.range ((l.length + chunkSize - 1) / chunkSize)).map
    (fun i => ((l.drop (i * chunkSize)).take chunkSize))

/-- Terminal outcome of the upload phase. -/
inductive UploadResult where
  | completed : Nat → UploadResult
  | aborted : Nat → UploadResult
  deriving DecidableEq, Repr

/-- What the upload loop produced: the events emitted, the batches actually
dispatched, and the terminal outcome. -/
structure UploadPhase where
  events : List Event
  dispatched : List (List (String × String))
  result : UploadResult
  deriving DecidableEq, Repr

/-- The batch loop (lines 261-292): dispatch the next chunk, collect its
settled outcomes; when any member was rejected, set the Failed result with
that chunk's error count and return without starting further chunks;
otherwise add the fulfilled count to the success counter and continue. -/
def uploadLoop (env : Env) (overwrite : Bool) (successedFiles : Nat) : List (List (String × String)) → UploadPhase
  | [] => ⟨[], [], UploadResult.completed successedFiles⟩
  | chunk :: rest =>
    let evs := chunkEvents env overwrite chunk
    if 0 < chunkErrorCount env overwrite chunk then
      ⟨evs, [chunk], UploadResult.aborted (chunkErrorCount env overwrite chunk)⟩
    else
      let nxt := uploadLoop env overwrite (successedFiles + chunkFulfilledCount env overwrite chunk) rest
      ⟨evs ++ nxt.events, chunk :: nxt.dispatched, nxt.result⟩

/-- The sequential directory-creation loop (lines 245-252): create each planned
folder in order; a creation failure throws TargetNotCreated with the offending
path, abandoning the rest of the loop.  Returns the mkdir calls made and
either success or the offending path. -/
def createFoldersLoop (env : Env) : List String → List Event × Except String Unit
  | [] => ([], Except.ok ())
  | f :: rest =>
    if env.mkdirOk f then
      let nxt := createFoldersLoop env rest
      (Event.mkdirCall f :: nxt.1, nxt.2)
    else ([Event.mkdirCall f], Except.error f)

/-- Terminal verdict of the selection-and-copy branch of run. -/
inductive RunVerdict where
  | succeededWith : Nat → RunVerdict
  | failedFolders : String → RunVerdict
  | failedUploads : Nat → RunVerdict
  | warnedNothingToCopy : RunVerdict
  | failedNothingToCopy : RunVerdict
  | failedEarly : RunVerdict
  | succeededWholeDir : RunVerdict
  deriving DecidableEq, Repr

/-- JS truthiness of an array value: every object, the empty array included,
is truthy, so `if (filesToCopy)` always takes the then branch. -/
def jsTruthyArray {α : Type} (_ : List α) : Bool := true

/-- What the copy branch produced: events, verdict and dispatched batches. -/
structure PhaseOut where
  events : List Event
  verdict : RunVerdict
  dispatched : List (List (String × String))
  deriving DecidableEq, Repr

/-- The selection-consuming branch of run (lines 230-299): test the selected
list for JS truthiness; on the truthy side prepare the (local, remote) pairs,
plan the unique folders from the sorted remote paths, create them sequentially
(a failure is the TargetNotCreated throw, caught as a failed run), then drive
the batch loop; on the falsy side (unreachable for an array) either throw
NothingToCopy or emit the warning according to failOnEmptySource. -/
def copyPhase (env : Env) (overwrite failOnEmptySource flattenFolders : Bool)
    (sourceFolder targetFolder : String) (filesToCopy : List String) : PhaseOut :=
  if jsTruthyArray filesToCopy then
    let preparedFiles := prepareFiles filesToCopy sourceFolder targetFolder flattenFolders
    let folderStructure := getUniqueFolders (sortStrings (preparedFiles.map Prod.snd))
    match createFoldersLoop env folderStructure with
    | (evs, Except.error f) => ⟨evs, RunVerdict.failedFolders f, []⟩
    | (evs, Except.ok _) =>
      let up := uploadLoop env overwrite 0 (chunkSlices 10 preparedFiles)
      ⟨evs ++ up.events,
        (match up.result with
         | UploadResult.completed n => RunVerdict.succeededWith n
         | UploadResult.aborted e => RunVerdict.failedUploads e),
        up.dispatched⟩
  else if failOnEmptySource then ⟨[], RunVerdict.failedNothingToCopy, []⟩
  else ⟨[Event.warningEmitted], RunVerdict.warnedNothingToCopy, []⟩

/-- Outcomes of the phases of run that surround the copy branch, supplied as an
environment: whether everything before `new SshHelper` succeeds (input reading
and the source-folder check), whether setupConnection succeeds, whether the
optional clean-target step completes without throwing (or is skipped), and
whether the whole-directory upload shortcut succeeds when taken. -/
structure RunConfig where
  preOk : Bool
  setupOk : Bool
  cleanOk : Bool
  uploadFolderOk : Bool

/-- The run function's control skeleton (lines 135-310): the try body throws
before the helper is created when the pre-phase fails (no close happens); once
the helper is created, every outcome — setup failure, clean failure, the
whole-directory shortcut, or the copy branch — reaches the finally block,
which closes the connection exactly once as the last interaction. -/
def runTask (m : String → String → Bool) (cfg : RunConfig) (env : Env)
    (overwrite failOnEmptySource flattenFolders : Bool)
    (sourceFolder targetFolder : String)
    (contents : List String) (allFiles : List String) : List Event × RunVerdict :=
  if !cfg.preOk then ([], RunVerdict.failedEarly)
  else
    let inner : List Event × RunVerdict :=
      if !cfg.setupOk then ([], RunVerdict.failedEarly)
      else if !cfg.cleanOk then ([], RunVerdict.failedEarly)
      else if contents == ["**"] then
        if cfg.uploadFolderOk then ([], RunVerdict.succeededWholeDir)
        else ([], RunVerdict.failedEarly)
      else
        let filesToCopy := getFilesToCopy m sourceFolder contents allFiles
        let p := copyPhase env overwrite failOnEmptySource flattenFolders sourceFolder targetFolder filesToCopy
        (p.events, p.verdict)
    (Event.createHelper :: inner.1 ++ [Event.closeCall], inner.2)

/-- The spec's first-seen deduplicated union, as a comparison definition: fold
a list through the seen-skipping append, keeping each string's first
occurrence. -/
def firstSeenDedup (l : List String) : List String := l.foldl addUnseen []

/-- Sample environment where every remote operation succeeds and no remote
path pre-exists. -/
def envAllOk : Env := ⟨fun _ => true, fun _ => false, fun _ => true⟩

/-- Sample environment where remote directory creation fails. -/
def envMkdirFail : Env := ⟨fun _ => false, fun _ => false, fun _ => true⟩

/-- Sample environment where every remote path already exists. -/
def envExists : Env := ⟨fun _ => true, fun _ => true, fun _ => true⟩

theorem addUnseen_nodup (acc : List String) (x : String) (h : acc.Nodup) :
    (addUnseen acc x).Nodup := by
  unfold addUnseen
  split
  · exact h
  next hx => simp [List.nodup_append, h, hx]

theorem foldl_addUnseen_nodup (l : List String) (acc : List String) (h : acc.Nodup) :
    (l.foldl addUnseen acc).Nodup := by
  induction l generalizing acc with
  | nil => exact h
  | cons x xs ih => exact ih (addUnseen acc x) (addUnseen_nodup acc x h)

theorem foldl_addUnseen_of_nodup (l : List String) (acc : List String)
    (h : l.Nodup) (hd : ∀ x ∈ l, x ∉ acc) : l.foldl addUnseen acc = acc ++ l := by
  induction l generalizing acc with
  | nil => simp
  | cons x xs ih =>
    have hx : x ∉ acc := hd x (by simp)
    have hxs : xs.Nodup := (List.nodup_cons.mp h).2
    have hhead : x ∉ xs := (List.nodup_cons.mp h).1
    have hstep : addUnseen acc x = acc ++ [x] := by rw [addUnseen, if_neg hx]
    have hrest : ∀ y ∈ xs, y ∉ acc ++ [x] := by
      intro y hy
      simp only [List.mem_append, List.mem_singleton]
      rintro (hya | hyx)
      · exact hd y (List.mem_cons_of_mem x hy) hya
      · exact hhead (hyx ▸ hy)
    calc (x :: xs).foldl addUnseen acc = xs.foldl addUnseen (addUnseen acc x) := rfl
      _ = xs.foldl addUnseen (acc ++ [x]) := by rw [hstep]
      _ = (acc ++ [x]) ++ xs := ih (acc ++ [x]) hxs hrest
      _ = acc ++ x :: xs := by simp

/-- C10: prepareFiles returns one (local, remote) pair per input path, in the
same order, the i-th pair's local side being exactly the i-th input path: the
mapping stage never drops, reorders or rewrites the local side of a selected
file. -/
theorem C10_prepareFiles_preserves_local_side (files : List String)
    (src tgt : String) (flat : Bool) :
    ((prepareFiles files src tgt flat).map Prod.fst = files) ∧
    ((prepareFiles files src tgt flat).length = files.length) := by
  constructor
  · rw [prepareFiles, List.map_map]
    exact List.map_id' files
  · simp [prepareFiles]

/-- C1: with an empty selected file set the warning branch is not taken — the
JS truthiness test on the selected array is true even for the empty array, so
the per-file copy path runs over zero files: zero folders are planned, zero
batches are dispatched, the verdict is success with zero files copied, no
warning is emitted and failOnEmptySource (either value) never causes a
failure.  The first conjunct evaluates the selection at a concrete failing
input whose pattern matches nothing. -/
theorem C1_empty_selection_takes_copy_path (env : Env) (ov fe fl : Bool)
    (src tgt : String) :
    getFilesToCopy minimatchOne "src" ["*.nomatch"] ["src/a.txt"] = [] ∧
    jsTruthyArray ([] : List String) = true ∧
    (copyPhase env ov fe fl src tgt []).verdict = RunVerdict.succeededWith 0 ∧
    (copyPhase env ov fe fl src tgt []).events = [] := by
  refine ⟨by decide, rfl, ?_, ?_⟩ <;>
    simp [copyPhase, jsTruthyArray, prepareFiles, sortStrings, getUniqueFolders,
      createFoldersLoop, chunkSlices, uploadLoop]

/-- C3 counterexample: the directory planner dedups only by exact string, with
no prefix subsumption; two mapped files, one directly in the destination
folder and one in a subfolder, produce two planned directories of which the
first is a path-prefix ancestor of the second. -/
theorem C3_counterexample_ancestor_pair :
    getUniqueFolders ["./dest/a.txt", "./dest/sub/b.txt"] = ["./dest", "./dest/sub"] ∧
    "./dest".toList.isPrefixOf "./dest/sub".toList = true ∧
    "./dest" ≠ "./dest/sub" := by decide

/-- C3 amended: the planner's output is deduplicated by exact path string — a
directory is added only if it was not already added verbatim, so no entry
appears twice — but no ancestor test is made and one entry may be a
path-prefix ancestor of another. -/
theorem C3_getUniqueFolders_nodup (l : List String) : (getUniqueFolders l).Nodup := by
  have hfold : getUniqueFolders l = (l.map posixDirname).foldl addUnseen [] := by
    simp [getUniqueFolders, addUnseen, List.foldl_map]
  rw [hfold]
  exact foldl_addUnseen_nodup _ _ List.nodup_nil

/-- C4 counterexample: a doubly negated pattern is classified as an include
pattern, but its bangs are kept and anchored into the glob, where they match
literally: over a tree holding src/a.txt the pattern with two leading bangs
selects nothing while the stripped pattern selects the file, so the two
selections differ. -/
theorem C4_counterexample_double_negation :
    leadingNegations "!!a.txt" = 2 ∧
    classifyPatterns "src" ["!!a.txt"] = ⟨["src/!!a.txt"], []⟩ ∧
    getFilesToCopy minimatchOne "src" ["!!a.txt"] ["src/a.txt"] = [] ∧
    getFilesToCopy minimatchOne "src" ["a.txt"] ["src/a.txt"] = ["src/a.txt"] := by
  decide

/-- C4 amended: a pattern whose trimmed form has an even number of leading
bangs is classified as an include pattern, but the bangs are not removed: the
anchored include pattern is the source root joined with the full trimmed
pattern, bangs included, so they are matched as literal characters and the
selection is in general not that of the stripped pattern. -/
theorem C4_amended_even_negations_kept_literally (root p : String)
    (h : leadingNegations (jsTrim p) % 2 = 0) :
    classifyPatterns root [p] = ⟨[pathJoin root (jsTrim p)], []⟩ := by
  simp [classifyPatterns, classifyStep, h]

/-- C4 amended, witness: the doubly negated pattern is anchored with its bangs
kept. -/
theorem C4_amended_witness :
    classifyPatterns "src" ["!!a.txt"] = ⟨[pathJoin "src" (jsTrim "!!a.txt")], []⟩ :=
  C4_amended_even_negations_kept_literally "src" "!!a.txt" (by decide)

theorem applyIncludes_from_acc (m : String → String → Bool) (allFiles : List String)
    (inc : List String) (acc : List String) :
    inc.foldl (fun files pat => (minimatchList m allFiles pat).foldl addUnseen files) acc
      = ((inc.map (fun p => minimatchList m allFiles p)).flatten).foldl addUnseen acc := by
  induction inc generalizing acc with
  | nil => rfl
  | cons p ps ih => simp [List.foldl_append, ih]

theorem applyIncludes_eq_dedup_flatten (m : String → String → Bool)
    (allFiles : List String) (inc : List String) :
    applyIncludes m allFiles inc
      = firstSeenDedup ((inc.map (fun p => minimatchList m allFiles p)).flatten) :=
  applyIncludes_from_acc m allFiles inc []

/-- C8: with zero exclude patterns the selection equals the first-seen
first-pattern-order deduplication of the concatenated per-include-pattern
match lists — the union of the match sets keyed on exact path string — and in
particular contains no duplicate paths. -/
theorem C8_union_dedup_first_seen (m : String → String → Bool) (src : String)
    (contents allFiles : List String)
    (hexc : (classifyPatterns src contents).excludeContents = []) :
    getFilesToCopy m src contents allFiles
      = firstSeenDedup ((((classifyPatterns src contents).includeContents).map
          (fun p => minimatchList m allFiles p)).flatten) ∧
    (getFilesToCopy m src contents allFiles).Nodup := by
  have heff : effectiveIncludes (classifyPatterns src contents)
      = (classifyPatterns src contents).includeContents := by
    rw [effectiveIncludes, hexc]
    simp
  have hmain : getFilesToCopy m src contents allFiles
      = applyIncludes m allFiles (classifyPatterns src contents).includeContents := by
    rw [getFilesToCopy, hexc, heff]
    rfl
  constructor
  · rw [hmain, applyIncludes_eq_dedup_flatten]
  · rw [hmain, applyIncludes, applyIncludes_from_acc]
    exact foldl_addUnseen_nodup _ _ List.nodup_nil

/-- C8 witness: two include patterns whose match sets overlap on src/a.txt;
the selection is their deduplicated union in first-seen order and has no
duplicates. -/
theorem C8_witness :
    (classifyPatterns "src" ["a.txt", "*.txt"]).excludeContents = [] ∧
    (getFilesToCopy minimatchOne "src" ["a.txt", "*.txt"] ["src/a.txt", "src/b.txt"]
      = firstSeenDedup ((((classifyPatterns "src" ["a.txt", "*.txt"]).includeContents).map
          (fun p => minimatchList minimatchOne ["src/a.txt", "src/b.txt"] p)).flatten) ∧
    (getFilesToCopy minimatchOne "src" ["a.txt", "*.txt"] ["src/a.txt", "src/b.txt"]).Nodup) :=
  ⟨by decide, C8_union_dedup_first_seen minimatchOne "src" ["a.txt", "*.txt"]
    ["src/a.txt", "src/b.txt"] (by decide)⟩

theorem applyExcludes_eq_filter_all (m : String → String → Bool)
    (exc : List String) (l : List String) :
    applyExcludes m l exc = l.filter (fun f => exc.all (fun p => m p f)) := by
  induction exc generalizing l with
  | nil => simp [applyExcludes]
  | cons p ps ih =>
    calc applyExcludes m l (p :: ps)
        = applyExcludes m (l.filter (fun f => m p f)) ps := rfl
      _ = (l.filter (fun f => m p f)).filter (fun f => ps.all (fun q => m q f)) := ih _
      _ = l.filter (fun f => (p :: ps).all (fun q => m q f)) := by
          rw [List.filter_filter]
          simp [List.all_cons, Bool.and_comm]

/-- C2: with only exclude patterns the implicit match-everything include
reproduces the full (duplicate-free) file listing; the exclude stage is a left
fold in which each anchored exclude pattern filters the set surviving the
previous stage (the kept leading bang makes a minimatch match mean survival),
so a later pattern only ever removes from what survived prior ones; and the
final selection equals the full listing minus the union of the per-pattern
removals — exactly the files every anchored exclude pattern still matches.
The selection is a sublist of the full listing. -/
theorem C2_only_excludes_fold_difference (m : String → String → Bool) (src : String)
    (contents allFiles : List String)
    (hinc : (classifyPatterns src contents).includeContents = [])
    (hexc : (classifyPatterns src contents).excludeContents ≠ [])
    (hstar : ∀ f ∈ allFiles, m "**" f = true)
    (hnd : allFiles.Nodup) :
    getFilesToCopy m src contents allFiles
      = ((classifyPatterns src contents).excludeContents).foldl
          (fun files pat => files.filter (fun f => m pat f)) allFiles ∧
    getFilesToCopy m src contents allFiles
      = allFiles.filter
          (fun f => ((classifyPatterns src contents).excludeContents).all (fun p => m p f)) ∧
    (getFilesToCopy m src contents allFiles).Sublist allFiles := by
  have heff : effectiveIncludes (classifyPatterns src contents) = ["**"] := by
    rw [effectiveIncludes, hinc]
    simp [hexc]
  have hstarfilter : allFiles.filter (fun f => m "**" f) = allFiles :=
    List.filter_eq_self.mpr (by intro a ha; exact hstar a ha)
  have hall : applyIncludes m allFiles ["**"] = allFiles := by
    rw [applyIncludes]
    calc (["**"] : List String).foldl
          (fun files pat => (minimatchList m allFiles pat).foldl addUnseen files) []
        = (minimatchList m allFiles "**").foldl addUnseen [] := rfl
      _ = allFiles.foldl addUnseen [] := by rw [minimatchList, hstarfilter]
      _ = [] ++ allFiles := foldl_addUnseen_of_nodup allFiles [] hnd (by simp)
      _ = allFiles := by simp
  have hmain : getFilesToCopy m src contents allFiles
      = applyExcludes m allFiles (classifyPatterns src contents).excludeContents := by
    rw [getFilesToCopy, heff, hall]
  refine ⟨?_, ?_, ?_⟩
  · rw [hmain]
    rfl
  · rw [hmain, applyExcludes_eq_filter_all]
  · rw [hmain, applyExcludes_eq_filter_all]
    exact List.filter_sublist allFiles

/-- C2 witness: a lone exclude pattern over a duplicate-free two-file tree;
the implicit match-all include reproduces the listing, the fold and the
filter-by-all formulations agree, and the selection is a sublist of the
listing. -/
theorem C2_witness :
    ((classifyPatterns "src" ["!*.log"]).includeContents = [] ∧
      (classifyPatterns "src" ["!*.log"]).excludeContents ≠ [] ∧
      (∀ f ∈ ["src/a.txt", "src/b.log"], minimatchOne "**" f = true) ∧
      (["src/a.txt", "src/b.log"] : List String).Nodup) ∧
    (getFilesToCopy minimatchOne "src" ["!*.log"] ["src/a.txt", "src/b.log"]
      = ((classifyPatterns "src" ["!*.log"]).excludeContents).foldl
          (fun files pat => files.filter (fun f => minimatchOne pat f))
          ["src/a.txt", "src/b.log"] ∧
    getFilesToCopy minimatchOne "src" ["!*.log"] ["src/a.txt", "src/b.log"]
      = (["src/a.txt", "src/b.log"] : List String).filter
          (fun f => ((classifyPatterns "src" ["!*.log"]).excludeContents).all
            (fun p => minimatchOne p f)) ∧
    (getFilesToCopy minimatchOne "src" ["!*.log"] ["src/a.txt", "src/b.log"]).Sublist
      ["src/a.txt", "src/b.log"]) :=
  ⟨⟨by decide, by decide, by decide, by decide⟩,
    C2_only_excludes_fold_difference minimatchOne "src" ["!*.log"]
      ["src/a.txt", "src/b.log"] (by decide) (by decide) (by decide) (by decide)⟩

theorem createFoldersLoop_events_no_upload (env : Env) (l : List String) :
    (createFoldersLoop env l).1.all (fun e => !isUploadEvent e) = true := by
  induction l with
  | nil => rfl
  | cons f rest ih =>
    rw [createFoldersLoop]
    split
    · simpa [isUploadEvent] using ih
    · simp [isUploadEvent]

/-- C5: a failure while creating one of the planned remote directories is
fatal: the verdict is the folder failure carrying the offending path (the
first one whose creation fails), no batch is ever dispatched and no upload
call is made. -/
theorem C5_mkdir_failure_fatal (env : Env) (ov fe fl : Bool) (src tgt : String)
    (files : List String) (d : String)
    (h : (createFoldersLoop env (getUniqueFolders (sortStrings
          ((prepareFiles files src tgt fl).map Prod.snd)))).2 = Except.error d) :
    (copyPhase env ov fe fl src tgt files).verdict = RunVerdict.failedFolders d ∧
    (copyPhase env ov fe fl src tgt files).dispatched = [] ∧
    (copyPhase env ov fe fl src tgt files).events.all (fun e => !isUploadEvent e) = true := by
  have hall := createFoldersLoop_events_no_upload env
    (getUniqueFolders (sortStrings ((prepareFiles files src tgt fl).map Prod.snd)))
  rw [copyPhase]
  rcases hE : createFoldersLoop env (getUniqueFolders (sortStrings
      ((prepareFiles files src tgt fl).map Prod.snd))) with ⟨evs, r⟩
  rw [hE] at h hall
  simp only at h
  subst h
  simp only [jsTruthyArray, if_true, hE]
  exact ⟨trivial, trivial, hall⟩

/-- C5 witness: one selected file, an environment whose directory creation
always fails; the planned folder is the offending path, the run fails on it,
and no batch or upload happens. -/
theorem C5_witness :
    (createFoldersLoop envMkdirFail (getUniqueFolders (sortStrings
        ((prepareFiles ["src/a.txt"] "src" "dest" false).map Prod.snd)))).2
      = Except.error "./dest" ∧
    ((copyPhase envMkdirFail false false false "src" "dest" ["src/a.txt"]).verdict
        = RunVerdict.failedFolders "./dest" ∧
      (copyPhase envMkdirFail false false false "src" "dest" ["src/a.txt"]).dispatched = [] ∧
      (copyPhase envMkdirFail false false false "src" "dest" ["src/a.txt"]).events.all
        (fun e => !isUploadEvent e) = true) :=
  ⟨by rfl, C5_mkdir_failure_fatal envMkdirFail false false false "src" "dest"
    ["src/a.txt"] "./dest" (by rfl)⟩

/-- Total fulfilled outcomes across a list of batches. -/
def sumFulfilled (env : Env) (ov : Bool) (cs : List (List (String × String))) : Nat :=
  (cs.map (fun c => chunkFulfilledCount env ov c)).sum

theorem uploadLoop_all_ok (env : Env) (ov : Bool) (cs : List (List (String × String)))
    (n : Nat) (h : ∀ c ∈ cs, chunkErrorCount env ov c = 0) :
    (uploadLoop env ov n cs).dispatched = cs ∧
    (uploadLoop env ov n cs).result = UploadResult.completed (n + sumFulfilled env ov cs) := by
  induction cs generalizing n with
  | nil => simp [uploadLoop, sumFulfilled]
  | cons c rest ih =>
    have hc : chunkErrorCount env ov c = 0 := h c (by simp)
    have hrest := ih (n + chunkFulfilledCount env ov c) (fun x hx => h x (by simp [hx]))
    rw [uploadLoop]
    simp only [hc, Nat.lt_irrefl, if_false]
    refine ⟨by simp [hrest.1], ?_⟩
    simp only [hrest.2, sumFulfilled, List.map_cons, List.sum_cons]
    ring_nf

theorem uploadLoop_first_fail (env : Env) (ov : Bool)
    (pre post : List (List (String × String))) (bad : List (String × String)) (n : Nat)
    (hpre : ∀ c ∈ pre, chunkErrorCount env ov c = 0)
    (hbad : 0 < chunkErrorCount env ov bad) :
    (uploadLoop env ov n (pre ++ bad :: post)).dispatched = pre ++ [bad] ∧
    (uploadLoop env ov n (pre ++ bad :: post)).result
      = UploadResult.aborted (chunkErrorCount env ov bad) := by
  induction pre generalizing n with
  | nil =>
    rw [List.nil_append, uploadLoop]
    simp [hbad]
  | cons c rest ih =>
    have hc : chunkErrorCount env ov c = 0 := hpre c (by simp)
    have hrest := ih (n + chunkFulfilledCount env ov c) (fun x hx => hpre x (by simp [hx]))
    rw [List.cons_append, uploadLoop]
    simp only [hc, Nat.lt_irrefl, if_false]
    exact ⟨by simp [hrest.1], by simp [hrest.2]⟩

/-- C6: chunking 25 prepared files at batch size 10 yields exactly 3 batches;
in the upload loop, when the batches split as clean-prefix, first-failing,
rest, the dispatched batches are exactly the prefix plus the failing batch —
no later batch ever starts — and the verdict is failure with that batch's
error count, which (the prior batches being clean) is the number of failures
observed through the failed batch; and when no batch contains a failure every
batch is dispatched and the success counter accumulates every fulfilled file
across batches. -/
theorem C6_batch_sequencing (env : Env) (ov : Bool) (files : List (String × String))
    (pre post : List (List (String × String))) (bad : List (String × String))
    (hlen : files.length = 25) :
    (chunkSlices 10 files).length = 3 ∧
    (chunkSlices 10 files = pre ++ bad :: post →
      (∀ c ∈ pre, chunkErrorCount env ov c = 0) →
      0 < chunkErrorCount env ov bad →
      (uploadLoop env ov 0 (chunkSlices 10 files)).dispatched = pre ++ [bad] ∧
      (uploadLoop env ov 0 (chunkSlices 10 files)).result
        = UploadResult.aborted (chunkErrorCount env ov bad)) ∧
    ((∀ c ∈ chunkSlices 10 files, chunkErrorCount env ov c = 0) →
      (uploadLoop env ov 0 (chunkSlices 10 files)).dispatched = chunkSlices 10 files ∧
      (uploadLoop env ov 0 (chunkSlices 10 files)).result
        = UploadResult.completed (sumFulfilled env ov (chunkSlices 10 files))) := by
  refine ⟨?_, ?_, ?_⟩
  · simp [chunkSlices, hlen]
  · intro he hpre hbad
    rw [he]
    exact uploadLoop_first_fail env ov pre post bad 0 hpre hbad
  · intro h
    have := uploadLoop_all_ok env ov (chunkSlices 10 files) 0 h
    simpa using this

/-- The 25 sample prepared files of the C6 scenario. -/
def sampleFiles25 : List (String × String) :=
  (List.range 25).map (fun i => ("src/f" ++ toString i, "./dest/f" ++ toString i))

/-- Sample environment where exactly the upload of src/f13 — a member of the
second batch of sampleFiles25 — fails. -/
def envOneFail : Env := ⟨fun _ => true, fun _ => false, fun s => !(s == "src/f13")⟩

/-- C6 witness: over the 25 sample files with a single failure in batch 2,
batches 1 and 2 are dispatched, batch 3 never starts, and the verdict is
failure with batch 2's error count. -/
theorem C6_witness :
    (uploadLoop envOneFail false 0 (chunkSlices 10 sampleFiles25)).dispatched
      = [sampleFiles25.take 10] ++ [(sampleFiles25.drop 10).take 10] ∧
    (uploadLoop envOneFail false 0 (chunkSlices 10 sampleFiles25)).result
      = UploadResult.aborted (chunkErrorCount envOneFail false ((sampleFiles25.drop 10).take 10)) :=
  (C6_batch_sequencing envOneFail false sampleFiles25 [sampleFiles25.take 10]
    [(sampleFiles25.drop 20).take 10] ((sampleFiles25.drop 10).take 10) (by decide)).2.1
    (by decide) (by decide) (by decide)

/-- C7: batch members settle independently — the outcome list has one entry
per chunk member, the i-th computed from the i-th pair alone, so one member's
rejection cancels no sibling — and per file: with overwrite off and an
existing remote destination the outcome is the FileExists rejection and no
upload call is made for it; with a non-existing destination the upload call is
made; with overwrite on the upload call is made unconditionally. -/
theorem C7_overwrite_check_and_isolation (env : Env) (ov : Bool)
    (chunk : List (String × String)) (ft tp : String) :
    (chunkOutcomes env ov chunk).length = chunk.length ∧
    chunkOutcomes env ov chunk = chunk.map (fun pt => (transferFile env ov pt.1 pt.2).2) ∧
    (env.remoteExists tp = true →
      (transferFile env false ft tp).2 = FileOutcome.rejected ("FileExists " ++ tp) ∧
      (transferFile env false ft tp).1.all (fun e => !isUploadEvent e) = true) ∧
    (env.remoteExists tp = false →
      Event.uploadCall ft tp ∈ (transferFile env false ft tp).1) ∧
    (Event.uploadCall ft tp ∈ (transferFile env true ft tp).1) := by
  refine ⟨by simp [chunkOutcomes], rfl, ?_, ?_, ?_⟩
  · intro hx
    rw [transferFile]
    simp [hx, isUploadEvent]
  · intro hx
    rw [transferFile]
    rcases hu : env.uploadOk ft with _ | _ <;> simp [hx, hu]
  · rw [transferFile]
    rcases hu : env.uploadOk ft with _ | _ <;> simp [hu]

/-- C7 witness: with overwrite off against an environment where the remote
destination exists, the file's outcome is the FileExists rejection and its
task makes no upload call. -/
theorem C7_witness :
    (transferFile envExists false "src/a.txt" "./dest/a.txt").2
      = FileOutcome.rejected ("FileExists " ++ "./dest/a.txt") ∧
    (transferFile envExists false "src/a.txt" "./dest/a.txt").1.all
      (fun e => !isUploadEvent e) = true :=
  (C7_overwrite_check_and_isolation envExists false [("src/a.txt", "./dest/a.txt")]
    "src/a.txt" "./dest/a.txt").2.2.1 rfl

theorem transferFile_events_no_close (env : Env) (ov : Bool) (a b : String) :
    Event.closeCall ∉ (transferFile env ov a b).1 := by
  rcases hov : ov with _ | _ <;> rcases hex : env.remoteExists b with _ | _ <;>
    rcases hu : env.uploadOk a with _ | _ <;> simp [transferFile, hov, hex, hu]

theorem chunkEvents_no_close (env : Env) (ov : Bool) (chunk : List (String × String)) :
    Event.closeCall ∉ chunkEvents env ov chunk := by
  rw [chunkEvents]
  intro hmem
  rcases List.mem_flatten.mp hmem with ⟨l, hl, hcl⟩
  rcases List.mem_map.mp hl with ⟨pt, _, hpt⟩
  exact transferFile_events_no_close env ov pt.1 pt.2 (hpt ▸ hcl)

theorem uploadLoop_events_no_close (env : Env) (ov : Bool) (n : Nat)
    (cs : List (List (String × String))) :
    Event.closeCall ∉ (uploadLoop env ov n cs).events := by
  induction cs generalizing n with
  | nil => simp [uploadLoop]
  | cons c rest ih =>
    rw [uploadLoop]
    split
    · exact chunkEvents_no_close env ov c
    · intro hmem
      rcases List.mem_append.mp hmem with hl | hr
      · exact chunkEvents_no_close env ov c hl
      · exact ih _ hr

theorem createFoldersLoop_events_no_close (env : Env) (l : List String) :
    Event.closeCall ∉ (createFoldersLoop env l).1 := by
  induction l with
  | nil => simp [createFoldersLoop]
  | cons f rest ih =>
    rw [createFoldersLoop]
    split
    · intro hmem
      rcases List.mem_cons.mp hmem with h1 | h2
      · exact Event.noConfusion h1
      · exact ih h2
    · simp

theorem copyPhase_events_no_close (env : Env) (ov fe fl : Bool) (src tgt : String)
    (files : List String) :
    Event.closeCall ∉ (copyPhase env ov fe fl src tgt files).events := by
  rw [copyPhase]
  simp only [jsTruthyArray, if_true]
  rcases hE : createFoldersLoop env (getUniqueFolders (sortStrings
      ((prepareFiles files src tgt fl).map Prod.snd))) with ⟨evs, r⟩
  have hevs : Event.closeCall ∉ evs := by
    have := createFoldersLoop_events_no_close env (getUniqueFolders (sortStrings
      ((prepareFiles files src tgt fl).map Prod.snd)))
    rw [hE] at this
    exact this
  rcases r with d | u
  · simpa [hE] using hevs
  · simp only [hE]
    intro hmem
    rcases List.mem_append.mp hmem with hl | hr
    · exact hevs hl
    · exact uploadLoop_events_no_close env ov 0 _ hr

/-- C9: on every exit path of a run that reaches session creation — setup
failure, clean failure, the whole-directory shortcut, a folder-creation
failure, an aborted upload phase or a completed one — the close call happens
exactly once, and it is the final event of the run. -/
theorem C9_close_exactly_once (m : String → String → Bool) (cfg : RunConfig) (env : Env)
    (ov fe fl : Bool) (src tgt : String) (contents allFiles : List String)
    (h : cfg.preOk = true) :
    ((runTask m cfg env ov fe fl src tgt contents allFiles).1.count Event.closeCall = 1) ∧
    ((runTask m cfg env ov fe fl src tgt contents allFiles).1.getLast?
      = some Event.closeCall) := by
  rw [runTask]
  simp only [h, Bool.not_true, Bool.false_eq_true, if_false]
  set inner : List Event × RunVerdict :=
    (if !cfg.setupOk then ([], RunVerdict.failedEarly)
     else if !cfg.cleanOk then ([], RunVerdict.failedEarly)
     else if contents == ["**"] then
       (if cfg.uploadFolderOk then ([], RunVerdict.succeededWholeDir)
        else ([], RunVerdict.failedEarly))
     else
       ((copyPhase env ov fe fl src tgt (getFilesToCopy m src contents allFiles)).events,
        (copyPhase env ov fe fl src tgt (getFilesToCopy m src contents allFiles)).verdict))
    with hinner
  have hno : Event.closeCall ∉ inner.1 := by
    rw [hinner]
    split
    · simp
    · split
      · simp
      · split
        · split <;> simp
        · exact copyPhase_events_no_close env ov fe fl src tgt _
  have hno2 : Event.closeCall ∉ Event.createHelper :: inner.1 := by
    intro hmem
    rcases List.mem_cons.mp hmem with h1 | h2
    · exact Event.noConfusion h1
    · exact hno h2
  constructor
  · rw [List.count_append]
    rw [List.count_eq_zero.mpr hno2]
    rfl
  · rw [List.getLast?_append_cons]
    rfl

/-- C9 witness: a fully successful concrete run closes the session exactly
once, as its final event. -/
theorem C9_witness :
    ((runTask minimatchOne ⟨true, true, true, true⟩ envAllOk false false false
        "src" "dest" ["a.txt"] ["src/a.txt"]).1.count Event.closeCall = 1) ∧
    ((runTask minimatchOne ⟨true, true, true, true⟩ envAllOk false false false
        "src" "dest" ["a.txt"] ["src/a.txt"]).1.getLast? = some Event.closeCall) :=
  C9_close_exactly_once minimatchOne ⟨true, true, true, true⟩ envAllOk false false false
    "src" "dest" ["a.txt"] ["src/a.txt"] rfl

end CopyFilesOverSSH
